import Mathlib

/-!
# AuditorPage: the mock audit controller

A shallow embedding of `src/pages/AuditorPage.jsx`.  The page keeps seven pieces of
React state and has two submit handlers which, after validating their input buffer,
run `commonAuditLogic`.  That function is asynchronous: it runs up to its `await`
inside the handler call, and the rest runs when the 2500 ms timer fires.  The two
halves are embedded as `commonAuditLogicStart` and `commonAuditLogicFinish`; the values
the closure captured (`source`, `input`, `fileName`) travel in a `PendingAudit`.

JavaScript strings are embedded as Lean strings, the numbers of the score computation
(small integers, exactly representable) as `Int`, and the wall clock read by
`new Date().toLocaleString()` is a parameter of the second half.
-/

namespace AuditorPage

/-! ## Data model -/

/-- The `line` field of a mock finding: a number for code audits, the string `'N/A'`
otherwise. -/
inductive LineRef where
  | num (n : Nat)
  | str (s : String)
  deriving DecidableEq, Repr

/-- One element of `mockVulnerabilities`. -/
structure Vulnerability where
  id : String
  severity : String
  type : String
  line : LineRef
  confidence : ℚ
  description : String
  deriving DecidableEq, Repr

/-- One element of `predictedVulnerabilities`. -/
structure PredictedVulnerability where
  type : String
  likelihood : String
  impact : String
  notes : String
  deriving DecidableEq, Repr

/-- The object passed to `setAuditResults`. -/
structure AuditResults where
  fileName : String
  timestamp : String
  vulnerabilities : List Vulnerability
  summary : String
  recommendations : List String
  predictedVulnerabilities : List PredictedVulnerability
  deriving DecidableEq, Repr

/-- The argument of `toast(...)`; `variant` is absent on the completion toast. -/
structure Toast where
  title : String
  description : String
  variant : Option String
  deriving DecidableEq, Repr

/-- The `useState` cells of `AuditorPage` (lines 17-23). -/
structure PageState where
  activeTab : String
  contractCode : String
  contractAddress : String
  fileName : String
  auditSource : String
  auditResults : Option AuditResults
  isLoading : Bool
  deriving DecidableEq, Repr

/-- The initial values given to `useState`. -/
def initialState : PageState :=
  { activeTab := "overview", contractCode := "", contractAddress := "", fileName := "",
    auditSource := "", auditResults := none, isLoading := false }

/-- What a suspended `commonAuditLogic` call remembers across its `await`: its two
arguments and the `fileName` of the render whose closure it is. -/
structure PendingAudit where
  source : String
  input : String
  fileName : String
  deriving DecidableEq, Repr

/-! ## Validation -/

/-- A character of the class `[a-fA-F0-9]`. -/
def isHexChar (c : Char) : Bool :=
  ('a' ≤ c && c ≤ 'f') || ('A' ≤ c && c ≤ 'F') || ('0' ≤ c && c ≤ '9')

/-- The test `/^0x[a-fA-F0-9]{40}$/.test(s)` of line 83: the whole string is `0x`
followed by exactly forty characters of the class. -/
def addressRegexTest (s : String) : Bool :=
  match s.data with
  | '0' :: 'x' :: rest => rest.length == 40 && rest.all isHexChar
  | _ => false

/-- JavaScript truthiness of a string: every string but the empty one. -/
def truthy (s : String) : Bool := s != ""

/-- The expression `a || b` on strings. -/
def orElse (a b : String) : String := if truthy a then a else b

/-! ## `commonAuditLogic` -/

/-- The array literal of lines 32-36. -/
def mockVulnerabilities (source : String) : List Vulnerability :=
  [ { id := "VULN001", severity := "High", type := "Reentrancy",
      line := if source = "code" then .num 42 else .str "N/A", confidence := 0.95,
      description := "Potential reentrancy vulnerability in the withdraw function." },
    { id := "VULN002", severity := "Medium", type := "Integer Overflow",
      line := if source = "code" then .num 101 else .str "N/A", confidence := 0.78,
      description := "Possible integer overflow when calculating rewards." },
    { id := "VULN003", severity := "Low", type := "Gas Limit Issue",
      line := if source = "code" then .num 77 else .str "N/A", confidence := 0.60,
      description := "Function may exceed gas limit with large inputs." } ]

/-- The callback of the `reduce` of line 38. -/
def severityPenalty (acc : Int) (v : Vulnerability) : Int :=
  acc + (if v.severity = "High" then 20 else (if v.severity = "Medium" then 10 else 5))

/-- The expression of line 38, as a function of the array it reduces. -/
def overallScore (vs : List Vulnerability) : Int :=
  100 - vs.foldl severityPenalty 0

/-- The number shown in the summary, `Math.max(0, overallScore)`. -/
def displayedScore (vs : List Vulnerability) : Int :=
  max 0 (overallScore vs)

/-- The template literal of line 44. -/
def summaryText (vs : List Vulnerability) : String :=
  "Found " ++ toString vs.length ++ " potential vulnerabilities. Overall security score: "
    ++ toString (displayedScore vs) ++ "/100."

/-- The object literal of lines 40-53. -/
def mkAuditResults (p : PendingAudit) (now : String) : AuditResults :=
  let vs := mockVulnerabilities p.source
  { fileName := if p.source = "code" then orElse p.fileName "PastedCode.sol"
                else "Contract at " ++ p.input,
    timestamp := now,
    vulnerabilities := vs,
    summary := summaryText vs,
    recommendations :=
      [ "Implement checks-effects-interactions pattern to prevent reentrancy.",
        "Use SafeMath libraries for arithmetic operations.",
        "Optimize gas usage in loops and complex functions." ],
    predictedVulnerabilities :=
      [ { type := "Oracle Manipulation", likelihood := "Medium", impact := "High",
          notes := "Based on external calls and data dependencies." } ] }

/-- The toast of lines 56-59. -/
def completeToast (p : PendingAudit) : Toast :=
  { title := "Audit Complete!",
    description := "Security audit for "
      ++ (if p.source = "code" then orElse p.fileName "pasted code" else p.input)
      ++ " finished. Check the results tab.",
    variant := none }

/-- Lines 26-28: what `commonAuditLogic` does before it suspends. -/
def commonAuditLogicStart (source : String) (st : PageState) : PageState :=
  { st with isLoading := true, auditResults := none, auditSource := source }

/-- Lines 32-59: what `commonAuditLogic` does when the timer has fired, on the state
of that moment, with `now` the string the clock gives. -/
def commonAuditLogicFinish (p : PendingAudit) (now : String) (st : PageState) :
    PageState × Toast :=
  ({ st with auditResults := some (mkAuditResults p now), isLoading := false,
             activeTab := "auditResults" },
   completeToast p)

/-! ## The submit handlers -/

/-- What one handler call leaves behind: the state, the toasts it emitted and the
`commonAuditLogic` call it started, if any. -/
structure Outcome where
  state : PageState
  toasts : List Toast
  started : Option PendingAudit
  deriving DecidableEq, Repr

/-- The toast of lines 64-68. -/
def noCodeToast : Toast :=
  { title := "No Code Provided",
    description := "Please upload or paste smart contract code to audit.",
    variant := some "destructive" }

/-- The toast of lines 76-80. -/
def noAddressToast : Toast :=
  { title := "No Address Provided",
    description := "Please enter a smart contract address to audit.",
    variant := some "destructive" }

/-- The toast of lines 84-88. -/
def invalidAddressToast : Toast :=
  { title := "Invalid Address",
    description := "Please enter a valid Ethereum-style address.",
    variant := some "destructive" }

/-- Lines 62-72. -/
def handleAuditCode (st : PageState) : Outcome :=
  if !truthy st.contractCode then
    { state := st, toasts := [noCodeToast], started := none }
  else
    { state := commonAuditLogicStart "code" st, toasts := [],
      started := some { source := "code", input := st.contractCode,
                        fileName := st.fileName } }

/-- Lines 74-92.  The `fileName` its closure holds may be an older one (the callback
is only rebuilt when `contractAddress` changes); it is never read on this path, see
`mkAuditResults_address_fileName`. -/
def handleAuditAddress (st : PageState) : Outcome :=
  if !truthy st.contractAddress then
    { state := st, toasts := [noAddressToast], started := none }
  else if !addressRegexTest st.contractAddress then
    { state := st, toasts := [invalidAddressToast], started := none }
  else
    { state := commonAuditLogicStart "address" st, toasts := [],
      started := some { source := "address", input := st.contractAddress,
                        fileName := st.fileName } }

/-! ## The page as a transition system

Every handler call, every state setter called by a tab component and every timer
callback runs to completion on the single UI thread, so each is one atomic step. -/

/-- The page together with the suspended `commonAuditLogic` calls and the toasts
emitted so far. -/
structure Sys where
  page : PageState
  pending : List PendingAudit
  toasts : List Toast
  deriving DecidableEq, Repr

/-- The freshly mounted page. -/
def initialSys : Sys := { page := initialState, pending := [], toasts := [] }

/-- What can happen to the page.  The first four are the setters handed to the tab
components (`setActiveTab`, `setContractCode`, `setContractAddress`, `setFileName`),
the next two the submit callbacks, the last the timer of the `i`-th suspended call
firing while the clock reads `now`. -/
inductive Event where
  | setActiveTab (tab : String)
  | setContractCode (code : String)
  | setContractAddress (addr : String)
  | setFileName (name : String)
  | auditCode
  | auditAddress
  | timerFires (i : Nat) (now : String)
  deriving DecidableEq, Repr

/-- Record the result of a handler call. -/
def applyOutcome (s : Sys) (o : Outcome) : Sys :=
  { page := o.state, pending := s.pending ++ o.started.toList,
    toasts := s.toasts ++ o.toasts }

/-- One atomic step of the page. -/
def step (s : Sys) : Event → Sys
  | .setActiveTab tab => { s with page := { s.page with activeTab := tab } }
  | .setContractCode code => { s with page := { s.page with contractCode := code } }
  | .setContractAddress addr => { s with page := { s.page with contractAddress := addr } }
  | .setFileName name => { s with page := { s.page with fileName := name } }
  | .auditCode => applyOutcome s (handleAuditCode s.page)
  | .auditAddress => applyOutcome s (handleAuditAddress s.page)
  | .timerFires i now =>
    match s.pending.get? i with
    | none => s
    | some p =>
      { page := (commonAuditLogicFinish p now s.page).1,
        pending := s.pending.eraseIdx i,
        toasts := s.toasts ++ [(commonAuditLogicFinish p now s.page).2] }

/-- Run a sequence of events. -/
def run (s : Sys) (es : List Event) : Sys := es.foldl step s

/-- A user submission: the payload typed into the form of one of the two input tabs. -/
inductive Submission where
  | code (code : String) (fileName : String)
  | address (addr : String)
  deriving DecidableEq, Repr

/-- The preconditions of the two handlers. -/
def Submission.valid : Submission → Bool
  | .code c _ => truthy c
  | .address a => truthy a && addressRegexTest a

/-- The `source` argument a submission gives to `commonAuditLogic`. -/
def Submission.source : Submission → String
  | .code _ _ => "code"
  | .address _ => "address"

/-- A submission carried through to its end: the form is filled in, the submit
callback is called, and the timer of the call it started (the first suspended one,
when none was suspended before) fires at `now`. -/
def Submission.events (now : String) : Submission → List Event
  | .code c f => [.setContractCode c, .setFileName f, .auditCode, .timerFires 0 now]
  | .address a => [.setContractAddress a, .auditAddress, .timerFires 0 now]

/-- A result with its wall-clock timestamp blanked. -/
def AuditResults.eraseTimestamp (r : AuditResults) : AuditResults :=
  { r with timestamp := "" }

/-- The suspended call a valid submission leaves behind. -/
def Submission.toPending : Submission → PendingAudit
  | .code c f => { source := "code", input := c, fileName := f }
  | .address a => { source := "address", input := a, fileName := "" }

/-- The result shown once a submission, started on a page with no suspended call, has
been carried through. -/
def resultOf (s : Sys) (sub : Submission) (now : String) : Option AuditResults :=
  (run s (sub.events now)).page.auditResults

/-- The findings shown once a submission has been carried through. -/
def findingsOf (s : Sys) (sub : Submission) (now : String) : Option (List Vulnerability) :=
  (resultOf s sub now).map (fun r => r.vulnerabilities)

/-- A finding without its `line` field. -/
def Vulnerability.withoutLine (v : Vulnerability) : String × String × String × ℚ × String :=
  (v.id, v.severity, v.type, v.confidence, v.description)

/-! ## The specification's vocabulary -/

/-- The severity weights as the specification gives them: High 20, Medium 10, Low 5
(no weight is given for anything else). -/
def specSeverityWeight (severity : String) : Int :=
  if severity = "High" then 20
  else if severity = "Medium" then 10
  else if severity = "Low" then 5
  else 0

/-- The specification's score: `100 − Σ severity_weight(finding)`, clamped below at 0. -/
def specScore (vs : List Vulnerability) : Int :=
  max 0 (100 - (vs.map (fun v => specSeverityWeight v.severity)).sum)

/-- The source label the specification names for a submission. -/
def specSourceLabel : Submission → String
  | .code _ f => if f = "" then "PastedCode.sol" else f
  | .address a => "Contract at " ++ a

/-- The summary the specification quotes. -/
def specSummary : String :=
  "Found 3 potential vulnerabilities. Overall security score: 65/100."

/-- The invariant carried along the runs of the page: a set in-flight flag means no
result, a result has three findings, and once an audit was started (one is suspended
or a result is there) the recorded source is one of the two variants. -/
def SysInvariant (s : Sys) : Prop :=
  (s.page.isLoading = true → s.page.auditResults = none) ∧
  (∀ r, s.page.auditResults = some r → r.vulnerabilities.length = 3) ∧
  ((s.page.auditResults ≠ none ∨ s.pending ≠ []) →
    (s.page.auditSource = "code" ∨ s.page.auditSource = "address"))

/-! ## Sample states -/

/-- The address of the specification's passing scenario. -/
def sampleAddress : String := "0x1234567890123456789012345678901234567890"

/-- The fresh page with some code pasted. -/
def codeFilled : PageState :=
  { initialState with activeTab := "upload", contractCode := "pragma solidity ^0.8.0;" }

/-- The fresh page with the sample address typed. -/
def addressFilled : PageState :=
  { initialState with activeTab := "auditAddress", contractAddress := sampleAddress }

/-- The fresh page with both forms filled in. -/
def bothFilled : PageState :=
  { initialState with contractCode := "pragma solidity ^0.8.0;",
                      contractAddress := sampleAddress }

/-- The fresh page with the malformed address of the specification's failing scenario. -/
def malformedFilled : PageState :=
  { initialState with activeTab := "auditAddress", contractAddress := "0xBAD" }

/-- A code submission with an uploaded file name. -/
def sampleCodeSubmission : Submission := .code "pragma solidity ^0.8.0;" "Token.sol"

/-- The address submission of the specification's passing scenario. -/
def sampleAddressSubmission : Submission := .address sampleAddress

/-- A second code submission, pasted without a file name. -/
def otherCodeSubmission : Submission := .code "contract Vault" ""

/-- A further High finding. -/
def sampleFinding : Vulnerability :=
  { id := "VULN004", severity := "High", type := "Unchecked Call", line := .num 7,
    confidence := 1, description := "" }

/-- Ten High findings, whose weights sum to 200. -/
def tenHighFindings : List Vulnerability :=
  List.replicate 10 sampleFinding

/-- Two overlapping audits: the address audit is started while the code audit is still
suspended, and the code audit's timer fires first. -/
def overlappingRun : List Event :=
  [.setContractCode "pragma solidity ^0.8.0;", .auditCode, .setContractAddress sampleAddress,
   .auditAddress, .timerFires 0 "10:00"]

/-- A code audit started and not yet completed. -/
def inFlightRun : List Event :=
  [.setActiveTab "upload", .setContractCode "pragma solidity ^0.8.0;", .auditCode]

/-! ## Helper lemmas -/

theorem truthy_iff (s : String) : truthy s = true ↔ s ≠ "" := by
  simp [truthy]

theorem addressRegexTest_ne_empty (s : String) (h : addressRegexTest s = true) : s ≠ "" := by
  intro he
  subst he
  simp [addressRegexTest] at h

theorem mockVulnerabilities_length (source : String) :
    (mockVulnerabilities source).length = 3 := by
  simp [mockVulnerabilities]

theorem displayedScore_mock (source : String) :
    displayedScore (mockVulnerabilities source) = 65 := by
  simp [displayedScore, overallScore, mockVulnerabilities, severityPenalty]

theorem summaryText_mock (source : String) :
    summaryText (mockVulnerabilities source) = specSummary := by
  have h := displayedScore_mock source
  have hl := mockVulnerabilities_length source
  unfold summaryText
  rw [h, hl]
  decide

/-- The address path never reads the captured `fileName`. -/
theorem mkAuditResults_address_fileName (input f g now : String) :
    mkAuditResults { source := "address", input := input, fileName := f } now
      = mkAuditResults { source := "address", input := input, fileName := g } now := by
  simp [mkAuditResults]

theorem handleAuditCode_ok (st : PageState) (h : st.contractCode ≠ "") :
    handleAuditCode st =
      { state := commonAuditLogicStart "code" st, toasts := [],
        started := some { source := "code", input := st.contractCode,
                          fileName := st.fileName } } := by
  simp [handleAuditCode, truthy, h]

theorem handleAuditCode_empty (st : PageState) (h : st.contractCode = "") :
    handleAuditCode st = { state := st, toasts := [noCodeToast], started := none } := by
  simp [handleAuditCode, truthy, h]

theorem handleAuditAddress_ok (st : PageState) (h : addressRegexTest st.contractAddress = true) :
    handleAuditAddress st =
      { state := commonAuditLogicStart "address" st, toasts := [],
        started := some { source := "address", input := st.contractAddress,
                          fileName := st.fileName } } := by
  have hne := addressRegexTest_ne_empty _ h
  simp [handleAuditAddress, truthy, h, hne]

theorem handleAuditAddress_empty (st : PageState) (h : st.contractAddress = "") :
    handleAuditAddress st = { state := st, toasts := [noAddressToast], started := none } := by
  simp [handleAuditAddress, truthy, h]

theorem handleAuditAddress_malformed (st : PageState) (hne : st.contractAddress ≠ "")
    (h : addressRegexTest st.contractAddress = false) :
    handleAuditAddress st
      = { state := st, toasts := [invalidAddressToast], started := none } := by
  simp [handleAuditAddress, truthy, h, hne]

/-! ## Validation failures -/

/-- C1 (as stated, refuted): the empty string does not match the address pattern, yet
`handleAuditAddress` on an empty address buffer emits no toast titled
"Invalid Address" (it emits "No Address Provided"). -/
theorem invalid_address_toast_fails_on_empty :
    addressRegexTest initialState.contractAddress = false ∧
    (∀ t ∈ (handleAuditAddress initialState).toasts, t.title ≠ "Invalid Address") ∧
    (handleAuditAddress initialState).toasts.map Toast.title = ["No Address Provided"] := by
  decide

/-- C1 (amended): for every non-empty address buffer that does not match
`^0x[a-fA-F0-9]{40}$`, `handleAuditAddress` leaves `auditResults` unchanged and emits
exactly one toast, titled "Invalid Address". -/
theorem handleAuditAddress_invalid (st : PageState) (hne : st.contractAddress ≠ "")
    (hbad : addressRegexTest st.contractAddress = false) :
    (handleAuditAddress st).state.auditResults = st.auditResults ∧
    (handleAuditAddress st).toasts.map Toast.title = ["Invalid Address"] := by
  rw [handleAuditAddress_malformed st hne hbad]
  exact ⟨rfl, rfl⟩

theorem handleAuditAddress_invalid_witness :
    malformedFilled.contractAddress ≠ "" ∧
    addressRegexTest
      malformedFilled.contractAddress = false ∧
    (handleAuditAddress malformedFilled).state.auditResults
      = none ∧
    (handleAuditAddress malformedFilled).toasts.map
      Toast.title = ["Invalid Address"] :=
  ⟨by decide, by decide,
    handleAuditAddress_invalid malformedFilled
      (by decide) (by decide)⟩

/-- C2: with an empty code buffer `handleAuditCode` leaves `auditResults` unchanged,
emits one toast titled "No Code Provided" and starts no `commonAuditLogic` call; with
an empty address buffer `handleAuditAddress` leaves `auditResults` unchanged, emits one
toast titled "No Address Provided" and starts no `commonAuditLogic` call. -/
theorem empty_payload_rejected (st : PageState) :
    (st.contractCode = "" →
      (handleAuditCode st).state.auditResults = st.auditResults ∧
      (handleAuditCode st).toasts.map Toast.title = ["No Code Provided"] ∧
      (handleAuditCode st).started = none) ∧
    (st.contractAddress = "" →
      (handleAuditAddress st).state.auditResults = st.auditResults ∧
      (handleAuditAddress st).toasts.map Toast.title = ["No Address Provided"] ∧
      (handleAuditAddress st).started = none) := by
  constructor
  · intro h
    rw [handleAuditCode_empty st h]
    exact ⟨rfl, rfl, rfl⟩
  · intro h
    rw [handleAuditAddress_empty st h]
    exact ⟨rfl, rfl, rfl⟩

theorem empty_payload_rejected_witness :
    (initialState.contractCode = "" ∧
      (handleAuditCode initialState).state.auditResults = initialState.auditResults ∧
      (handleAuditCode initialState).toasts.map Toast.title = ["No Code Provided"] ∧
      (handleAuditCode initialState).started = none) ∧
    (initialState.contractAddress = "" ∧
      (handleAuditAddress initialState).state.auditResults = initialState.auditResults ∧
      (handleAuditAddress initialState).toasts.map Toast.title = ["No Address Provided"] ∧
      (handleAuditAddress initialState).started = none) :=
  ⟨⟨rfl, (empty_payload_rejected initialState).1 rfl⟩,
   ⟨rfl, (empty_payload_rejected initialState).2 rfl⟩⟩

/-- C6: on a validation failure (empty code buffer for `handleAuditCode`; empty or
malformed address buffer for `handleAuditAddress`) the handler returns the state it was
given, every cell of it, starts no audit, and emits exactly one toast, whose variant
is "destructive". -/
theorem validation_failure_frame (st : PageState) :
    (st.contractCode = "" →
      (handleAuditCode st).state = st ∧ (handleAuditCode st).started = none ∧
      ∃ t, (handleAuditCode st).toasts = [t] ∧ t.variant = some "destructive") ∧
    ((st.contractAddress = "" ∨ addressRegexTest st.contractAddress = false) →
      (handleAuditAddress st).state = st ∧ (handleAuditAddress st).started = none ∧
      ∃ t, (handleAuditAddress st).toasts = [t] ∧ t.variant = some "destructive") := by
  constructor
  · intro h
    rw [handleAuditCode_empty st h]
    exact ⟨rfl, rfl, noCodeToast, rfl, rfl⟩
  · intro h
    by_cases he : st.contractAddress = ""
    · rw [handleAuditAddress_empty st he]
      exact ⟨rfl, rfl, noAddressToast, rfl, rfl⟩
    · have hbad : addressRegexTest st.contractAddress = false := by
        rcases h with h | h
        · exact absurd h he
        · exact h
      rw [handleAuditAddress_malformed st he hbad]
      exact ⟨rfl, rfl, invalidAddressToast, rfl, rfl⟩

theorem validation_failure_frame_witness :
    (malformedFilled.contractCode = "" ∧
      (handleAuditCode
        malformedFilled).state
        = malformedFilled) ∧
    (addressRegexTest malformedFilled.contractAddress = false ∧
      (handleAuditAddress
        malformedFilled).state
        = malformedFilled ∧
      (handleAuditAddress
        malformedFilled).started
        = none) :=
  ⟨⟨rfl, ((validation_failure_frame
      malformedFilled).1 rfl).1⟩,
   ⟨by decide,
    ((validation_failure_frame
      malformedFilled).2
        (Or.inr (by decide))).1,
    ((validation_failure_frame
      malformedFilled).2
        (Or.inr (by decide))).2.1⟩⟩

/-! ## Successful submissions -/

/-- C3: for every non-empty code buffer and every file name, `handleAuditCode` starts
`commonAuditLogic`: the state it leaves has `isLoading` true, and when the timer fires
(on the state the handler left, or on any later state `mid`) `isLoading` is false and
the result holds exactly the three findings High/Reentrancy, Medium/Integer Overflow,
Low/Gas Limit Issue and exactly the one predicted risk Oracle Manipulation. -/
theorem handleAuditCode_completes (st mid : PageState) (now : String)
    (h : st.contractCode ≠ "") :
    ∃ p, (handleAuditCode st).started = some p ∧
      (handleAuditCode st).state.isLoading = true ∧
      (commonAuditLogicFinish p now (handleAuditCode st).state).1.isLoading = false ∧
      (commonAuditLogicFinish p now mid).1.isLoading = false ∧
      ∃ r, (commonAuditLogicFinish p now (handleAuditCode st).state).1.auditResults = some r ∧
        (commonAuditLogicFinish p now mid).1.auditResults = some r ∧
        r.vulnerabilities.length = 3 ∧
        r.vulnerabilities.map (fun v => (v.severity, v.type))
          = [("High", "Reentrancy"), ("Medium", "Integer Overflow"),
             ("Low", "Gas Limit Issue")] ∧
        r.predictedVulnerabilities.length = 1 ∧
        r.predictedVulnerabilities.map (fun v => v.type) = ["Oracle Manipulation"] := by
  rw [handleAuditCode_ok st h]
  refine ⟨_, rfl, rfl, rfl, rfl, _, rfl, rfl, ?_, ?_, rfl, ?_⟩
  · simp [mkAuditResults, mockVulnerabilities]
  · simp [mkAuditResults, mockVulnerabilities]
  · simp [mkAuditResults]

theorem handleAuditCode_completes_witness :
    codeFilled.contractCode ≠ "" ∧
    ∃ p, (handleAuditCode codeFilled).started
        = some p ∧
      (handleAuditCode codeFilled).state.isLoading
        = true ∧
      (commonAuditLogicFinish p "1/1/2025, 12:00:00 PM"
        (handleAuditCode codeFilled).state).1.isLoading
        = false ∧
      (commonAuditLogicFinish p "1/1/2025, 12:00:00 PM" initialState).1.isLoading = false ∧
      ∃ r, (commonAuditLogicFinish p "1/1/2025, 12:00:00 PM"
          (handleAuditCode codeFilled).state).1.auditResults
          = some r ∧
        (commonAuditLogicFinish p "1/1/2025, 12:00:00 PM" initialState).1.auditResults
          = some r ∧
        r.vulnerabilities.length = 3 ∧
        r.vulnerabilities.map (fun v => (v.severity, v.type))
          = [("High", "Reentrancy"), ("Medium", "Integer Overflow"),
             ("Low", "Gas Limit Issue")] ∧
        r.predictedVulnerabilities.length = 1 ∧
        r.predictedVulnerabilities.map (fun v => v.type) = ["Oracle Manipulation"] :=
  ⟨by decide,
   handleAuditCode_completes codeFilled
     initialState "1/1/2025, 12:00:00 PM" (by decide)⟩

/-- C4: for every successful submission (any non-empty code buffer, any address buffer
matching the pattern), whatever state the timer finds, the result carries the score
`max 0 (100 - 20 - 10 - 5) = 65` and its summary is exactly
"Found 3 potential vulnerabilities. Overall security score: 65/100.". -/
theorem successful_submission_score (st mid : PageState) (now : String) :
    (st.contractCode ≠ "" →
      ∃ p r, (handleAuditCode st).started = some p ∧
        (commonAuditLogicFinish p now mid).1.auditResults = some r ∧
        displayedScore r.vulnerabilities = 65 ∧
        displayedScore r.vulnerabilities = max 0 (100 - 20 - 10 - 5) ∧
        r.summary = "Found 3 potential vulnerabilities. Overall security score: 65/100.") ∧
    (addressRegexTest st.contractAddress = true →
      ∃ p r, (handleAuditAddress st).started = some p ∧
        (commonAuditLogicFinish p now mid).1.auditResults = some r ∧
        displayedScore r.vulnerabilities = 65 ∧
        displayedScore r.vulnerabilities = max 0 (100 - 20 - 10 - 5) ∧
        r.summary = "Found 3 potential vulnerabilities. Overall security score: 65/100.") := by
  constructor
  · intro h
    rw [handleAuditCode_ok st h]
    exact ⟨_, _, rfl, rfl, displayedScore_mock _, displayedScore_mock _, summaryText_mock _⟩
  · intro h
    rw [handleAuditAddress_ok st h]
    exact ⟨_, _, rfl, rfl, displayedScore_mock _, displayedScore_mock _, summaryText_mock _⟩

theorem successful_submission_score_witness :
    (bothFilled.contractCode ≠ "" ∧
      ∃ p r, (handleAuditCode bothFilled).started = some p ∧
        (commonAuditLogicFinish p "now" initialState).1.auditResults = some r ∧
        displayedScore r.vulnerabilities = 65 ∧
        displayedScore r.vulnerabilities = max 0 (100 - 20 - 10 - 5) ∧
        r.summary = "Found 3 potential vulnerabilities. Overall security score: 65/100.") ∧
    (addressRegexTest bothFilled.contractAddress = true ∧
      ∃ p r, (handleAuditAddress bothFilled).started = some p ∧
        (commonAuditLogicFinish p "now" initialState).1.auditResults = some r ∧
        displayedScore r.vulnerabilities = 65 ∧
        displayedScore r.vulnerabilities = max 0 (100 - 20 - 10 - 5) ∧
        r.summary = "Found 3 potential vulnerabilities. Overall security score: 65/100.") :=
  ⟨⟨by decide,
    (successful_submission_score bothFilled
      initialState "now").1 (by decide)⟩,
   ⟨by decide,
    (successful_submission_score bothFilled
      initialState "now").2 (by decide)⟩⟩

/-- C5: for every address buffer matching `^0x[a-fA-F0-9]{40}$`, `handleAuditAddress`
passes validation (no toast, an audit is started), and once the timer has fired the
active tab is "auditResults", `isLoading` is false, `auditSource` is "address" and the
result is present with a summary that is (hence contains)
"Found 3 potential vulnerabilities. Overall security score: 65/100." - for every state
`st` before the submission, so whatever its active tab and prior result. -/
theorem handleAuditAddress_completes (st : PageState) (now : String)
    (h : addressRegexTest st.contractAddress = true) :
    (handleAuditAddress st).toasts = [] ∧
    ∃ p, (handleAuditAddress st).started = some p ∧
      (commonAuditLogicFinish p now (handleAuditAddress st).state).1.activeTab
        = "auditResults" ∧
      (commonAuditLogicFinish p now (handleAuditAddress st).state).1.isLoading = false ∧
      (commonAuditLogicFinish p now (handleAuditAddress st).state).1.auditSource
        = "address" ∧
      ∃ r, (commonAuditLogicFinish p now (handleAuditAddress st).state).1.auditResults
          = some r ∧
        r.summary = specSummary ∧
        specSummary.data <:+: r.summary.data := by
  rw [handleAuditAddress_ok st h]
  refine ⟨rfl, _, rfl, rfl, rfl, rfl, _, rfl, summaryText_mock _, ?_⟩
  show specSummary.data <:+: (summaryText (mockVulnerabilities "address")).data
  rw [summaryText_mock]

theorem handleAuditAddress_completes_witness :
    addressRegexTest addressFilled.contractAddress = true ∧
    (handleAuditAddress addressFilled).toasts = [] ∧
    ∃ p, (handleAuditAddress addressFilled).started = some p ∧
      (commonAuditLogicFinish p "now" (handleAuditAddress addressFilled).state).1.activeTab
        = "auditResults" ∧
      (commonAuditLogicFinish p "now" (handleAuditAddress addressFilled).state).1.isLoading
        = false ∧
      (commonAuditLogicFinish p "now" (handleAuditAddress addressFilled).state).1.auditSource
        = "address" ∧
      ∃ r, (commonAuditLogicFinish p "now" (handleAuditAddress addressFilled).state).1.auditResults
          = some r ∧
        r.summary = specSummary ∧
        specSummary.data <:+: r.summary.data :=
  ⟨by decide,
   handleAuditAddress_completes addressFilled "now" (by decide)⟩

/-! ## Runs of whole submissions -/

theorem run_append (s : Sys) (es fs : List Event) : run s (es ++ fs) = run (run s es) fs := by
  simp [run, List.foldl_append]

theorem run_submission_pending (s : Sys) (sub : Submission) (now : String)
    (hs : s.pending = []) (h : sub.valid = true) :
    (run s (sub.events now)).pending = [] := by
  cases sub with
  | code c f =>
    have hc : c ≠ "" := (truthy_iff c).1 h
    simp [run, Submission.events, step, applyOutcome, handleAuditCode, truthy, hc, hs]
  | address a =>
    have ha : addressRegexTest a = true := by
      simp [Submission.valid] at h
      exact h.2
    have hne := addressRegexTest_ne_empty a ha
    simp [run, Submission.events, step, applyOutcome, handleAuditAddress, truthy, ha, hne, hs]

theorem resultOf_valid (s : Sys) (sub : Submission) (now : String)
    (hs : s.pending = []) (h : sub.valid = true) :
    resultOf s sub now = some (mkAuditResults sub.toPending now) := by
  cases sub with
  | code c f =>
    have hc : c ≠ "" := (truthy_iff c).1 h
    simp [resultOf, run, Submission.events, step, applyOutcome, handleAuditCode, truthy, hc, hs,
      commonAuditLogicStart, commonAuditLogicFinish, Submission.toPending]
  | address a =>
    have ha : addressRegexTest a = true := by
      simp [Submission.valid] at h
      exact h.2
    have hne := addressRegexTest_ne_empty a ha
    simp [resultOf, run, Submission.events, step, applyOutcome, handleAuditAddress, truthy, ha,
      hne, hs, commonAuditLogicStart, commonAuditLogicFinish, Submission.toPending]
    exact mkAuditResults_address_fileName a _ _ now

theorem mkAuditResults_fileName (sub : Submission) (now : String) :
    (mkAuditResults sub.toPending now).fileName = specSourceLabel sub := by
  cases sub with
  | code c f =>
    by_cases hf : f = "" <;>
      simp [mkAuditResults, Submission.toPending, specSourceLabel, orElse, truthy, hf]
  | address a =>
    simp [mkAuditResults, Submission.toPending, specSourceLabel]

theorem eraseTimestamp_mkAuditResults (p : PendingAudit) (now now' : String) :
    (mkAuditResults p now).eraseTimestamp = (mkAuditResults p now').eraseTimestamp := by
  simp [mkAuditResults, AuditResults.eraseTimestamp]

/-- C7: two submissions with valid inputs carried through one after the other, the
second started once the first has completed, leave as `auditResults` what the second
alone leaves on any page `s'` with no call suspended, so in particular on one with no
prior result (the timestamp aside); that result has
exactly 3 findings and 1 predicted risk, and its source label is that of the second
submission: "Contract at <address>" for an address, the uploaded file name or
"PastedCode.sol" when there is none for code. -/
theorem resubmission_replaces (s s' : Sys) (first second : Submission)
    (now₁ now₂ now₃ : String)
    (hs : s.pending = []) (hs' : s'.pending = [])
    (h1 : first.valid = true) (h2 : second.valid = true) :
    (run s (first.events now₁ ++ second.events now₂)).page.auditResults.map
        AuditResults.eraseTimestamp
      = (resultOf s' second now₃).map AuditResults.eraseTimestamp ∧
    ∃ r, (run s (first.events now₁ ++ second.events now₂)).page.auditResults = some r ∧
      r.vulnerabilities.length = 3 ∧
      r.predictedVulnerabilities.length = 1 ∧
      r.fileName = specSourceLabel second := by
  have hmid := run_submission_pending s first now₁ hs h1
  have hfin : (run s (first.events now₁ ++ second.events now₂)).page.auditResults
      = some (mkAuditResults second.toPending now₂) := by
    rw [run_append]
    exact resultOf_valid (run s (first.events now₁)) second now₂ hmid h2
  rw [hfin, resultOf_valid s' second now₃ hs' h2]
  refine ⟨?_, _, rfl, mockVulnerabilities_length _, rfl, mkAuditResults_fileName _ _⟩
  exact congrArg some (eraseTimestamp_mkAuditResults _ _ _)

theorem resubmission_replaces_witness :
    (initialSys.pending = [] ∧ initialSys.page.auditResults = none ∧
      sampleCodeSubmission.valid = true ∧ sampleAddressSubmission.valid = true) ∧
    ((run initialSys (sampleCodeSubmission.events "10:00" ++
          sampleAddressSubmission.events "10:05")).page.auditResults.map
        AuditResults.eraseTimestamp
      = (resultOf initialSys sampleAddressSubmission "11:00").map
          AuditResults.eraseTimestamp ∧
    ∃ r, (run initialSys (sampleCodeSubmission.events "10:00" ++
          sampleAddressSubmission.events "10:05")).page.auditResults = some r ∧
      r.vulnerabilities.length = 3 ∧
      r.predictedVulnerabilities.length = 1 ∧
      r.fileName = specSourceLabel sampleAddressSubmission) :=
  ⟨⟨rfl, rfl, by decide, by decide⟩,
   resubmission_replaces initialSys initialSys sampleCodeSubmission sampleAddressSubmission
     "10:00" "10:05" "11:00" rfl rfl (by decide) (by decide)⟩

/-! ## Determinism and input independence -/

/-- C8 (as stated, refuted): a valid code submission and a valid address submission
do not produce equal findings lists - the `line` fields differ. -/
theorem findings_differ_between_variants :
    sampleCodeSubmission.valid = true ∧ sampleAddressSubmission.valid = true ∧
    findingsOf initialSys sampleCodeSubmission "10:00"
      ≠ findingsOf initialSys sampleAddressSubmission "10:00" ∧
    (findingsOf initialSys sampleCodeSubmission "10:00").map
        (fun vs => vs.map (fun v => v.line))
      = some [.num 42, .num 101, .num 77] ∧
    (findingsOf initialSys sampleAddressSubmission "10:00").map
        (fun vs => vs.map (fun v => v.line))
      = some [.str "N/A", .str "N/A", .str "N/A"] := by
  refine ⟨by decide, by decide, ?_, by decide, by decide⟩
  intro h
  have h' := congrArg (fun o => Option.map (fun vs => List.map (fun v => v.line) vs) o) h
  revert h'
  decide

/-- C8 (amended): carried through on pages with no suspended call, two valid
submissions with identical inputs give the same result whatever the state they start
from (the timestamp aside); two valid submissions of the same variant give equal
findings lists whatever their payloads; and two valid submissions of any variants give
findings lists that agree in every field but `line`. -/
theorem findings_input_independent (s s' : Sys) (sub sub' : Submission) (now now' : String)
    (hs : s.pending = []) (hs' : s'.pending = [])
    (h : sub.valid = true) (h' : sub'.valid = true) :
    (sub = sub' →
      (resultOf s sub now).map AuditResults.eraseTimestamp
        = (resultOf s' sub' now').map AuditResults.eraseTimestamp) ∧
    (sub.source = sub'.source → findingsOf s sub now = findingsOf s' sub' now') ∧
    (findingsOf s sub now).map (fun vs => vs.map Vulnerability.withoutLine)
      = (findingsOf s' sub' now').map (fun vs => vs.map Vulnerability.withoutLine) := by
  unfold findingsOf
  rw [resultOf_valid s sub now hs h, resultOf_valid s' sub' now' hs' h']
  refine ⟨?_, ?_, ?_⟩
  · intro he
    subst he
    exact congrArg some (eraseTimestamp_mkAuditResults _ _ _)
  · intro he
    have hp : sub.toPending.source = sub'.toPending.source := by
      cases sub <;> cases sub' <;> simp_all [Submission.source, Submission.toPending]
    simp [mkAuditResults, hp]
  · simp [mkAuditResults, mockVulnerabilities, Vulnerability.withoutLine]

theorem findings_input_independent_witness :
    (initialSys.pending = [] ∧ sampleCodeSubmission.valid = true ∧
      otherCodeSubmission.valid = true ∧ sampleCodeSubmission ≠ otherCodeSubmission) ∧
    findingsOf initialSys sampleCodeSubmission "10:00"
      = findingsOf initialSys otherCodeSubmission "10:05" ∧
    (findingsOf initialSys sampleCodeSubmission "10:00").map
        (fun vs => vs.map Vulnerability.withoutLine)
      = (findingsOf initialSys otherCodeSubmission "10:05").map
          (fun vs => vs.map Vulnerability.withoutLine) :=
  ⟨⟨rfl, by decide, by decide, by decide⟩,
   (findings_input_independent initialSys initialSys sampleCodeSubmission
     otherCodeSubmission "10:00" "10:05" rfl rfl (by decide) (by decide)).2.1 rfl,
   (findings_input_independent initialSys initialSys sampleCodeSubmission
     otherCodeSubmission "10:00" "10:05" rfl rfl (by decide) (by decide)).2.2⟩

/-! ## The score -/

theorem foldl_severityPenalty (vs : List Vulnerability) (a : Int) :
    vs.foldl severityPenalty a = a + vs.foldl severityPenalty 0 := by
  induction vs generalizing a with
  | nil => simp
  | cons v vs ih =>
    rw [List.foldl_cons, List.foldl_cons, ih (severityPenalty a v),
      ih (severityPenalty 0 v)]
    simp only [severityPenalty]
    omega

theorem severityPenalty_zero_pos (v : Vulnerability) : 0 < severityPenalty 0 v := by
  unfold severityPenalty
  split_ifs <;> omega

theorem foldl_severityPenalty_nonneg (vs : List Vulnerability) :
    0 ≤ vs.foldl severityPenalty 0 := by
  induction vs with
  | nil => simp
  | cons v vs ih =>
    rw [List.foldl_cons, foldl_severityPenalty]
    have := severityPenalty_zero_pos v
    omega

theorem foldl_severityPenalty_eq_spec (vs : List Vulnerability)
    (hvs : ∀ w ∈ vs, w.severity = "High" ∨ w.severity = "Medium" ∨ w.severity = "Low") :
    vs.foldl severityPenalty 0 = (vs.map (fun v => specSeverityWeight v.severity)).sum := by
  induction vs with
  | nil => simp
  | cons v vs ih =>
    have hv := hvs v (List.mem_cons_self v vs)
    have hrest := ih (fun w hw => hvs w (List.mem_cons_of_mem v hw))
    rw [List.foldl_cons, foldl_severityPenalty, hrest, List.map_cons, List.sum_cons]
    have hw : severityPenalty 0 v = specSeverityWeight v.severity := by
      rcases hv with h | h | h <;> simp [severityPenalty, specSeverityWeight, h]
    rw [hw]

/-- C9: for every list of findings with severities among High, Medium and Low (and
every further finding `v`), the displayed score is the specification's
`max 0 (100 - sum of weights)` with weights 20, 10 and 5; it lies between 0 and 100; it
is 100 for the empty list; adding `v`, at either end, does not increase it; and it is 0
when the weights sum to 100 or more. -/
theorem displayedScore_spec (vs : List Vulnerability) (v : Vulnerability)
    (hvs : ∀ w ∈ vs, w.severity = "High" ∨ w.severity = "Medium" ∨ w.severity = "Low") :
    displayedScore vs = specScore vs ∧
    specScore vs = max 0 (100 - (vs.map (fun w => specSeverityWeight w.severity)).sum) ∧
    specSeverityWeight "High" = 20 ∧ specSeverityWeight "Medium" = 10 ∧
    specSeverityWeight "Low" = 5 ∧
    0 ≤ displayedScore vs ∧ displayedScore vs ≤ 100 ∧
    displayedScore [] = 100 ∧
    displayedScore (vs ++ [v]) ≤ displayedScore vs ∧
    displayedScore (v :: vs) ≤ displayedScore vs ∧
    (100 ≤ (vs.map (fun w => specSeverityWeight w.severity)).sum → displayedScore vs = 0) := by
  have hsum := foldl_severityPenalty_eq_spec vs hvs
  have hnn := foldl_severityPenalty_nonneg vs
  have hpos := severityPenalty_zero_pos v
  have happ : (vs ++ [v]).foldl severityPenalty 0
      = vs.foldl severityPenalty 0 + severityPenalty 0 v := by
    rw [List.foldl_append, List.foldl_cons, List.foldl_nil, foldl_severityPenalty]
    simp only [severityPenalty]
    omega
  have hcons : (v :: vs).foldl severityPenalty 0
      = severityPenalty 0 v + vs.foldl severityPenalty 0 := by
    rw [List.foldl_cons, foldl_severityPenalty]
  refine ⟨?_, rfl, by decide, by decide, by decide, ?_, ?_, ?_, ?_, ?_, ?_⟩
  · simp only [displayedScore, specScore, overallScore, hsum]
  · exact le_max_left _ _
  · simp only [displayedScore, overallScore]
    omega
  · decide
  · simp only [displayedScore, overallScore, happ]
    omega
  · simp only [displayedScore, overallScore, hcons]
    omega
  · intro h
    simp only [displayedScore, overallScore, hsum]
    omega

theorem displayedScore_spec_witness :
    (∀ w ∈ tenHighFindings,
      w.severity = "High" ∨ w.severity = "Medium" ∨ w.severity = "Low") ∧
    displayedScore tenHighFindings = specScore tenHighFindings ∧
    displayedScore tenHighFindings = 0 ∧
    displayedScore (mockVulnerabilities "code") = specScore (mockVulnerabilities "code") ∧
    displayedScore (mockVulnerabilities "code" ++ [sampleFinding])
      ≤ displayedScore (mockVulnerabilities "code") :=
  ⟨by decide,
   (displayedScore_spec tenHighFindings sampleFinding (by decide)).1,
   (displayedScore_spec tenHighFindings sampleFinding (by decide)).2.2.2.2.2.2.2.2.2.2
      (by decide),
   (displayedScore_spec (mockVulnerabilities "code") sampleFinding (by decide)).1,
   (displayedScore_spec (mockVulnerabilities "code") sampleFinding
      (by decide)).2.2.2.2.2.2.2.2.1⟩

/-! ## Reachable states -/

theorem sysInvariant_initial : SysInvariant initialSys := by
  refine ⟨?_, ?_, ?_⟩
  · intro _
    rfl
  · intro r hr
    exact absurd hr (by simp [initialSys, initialState])
  · intro h
    exact absurd h (by simp [initialSys, initialState])

theorem sysInvariant_start (s : Sys) (source input f : String)
    (hsrc : source = "code" ∨ source = "address") :
    SysInvariant (applyOutcome s
      { state := commonAuditLogicStart source s.page, toasts := [],
        started := some { source := source, input := input, fileName := f } }) := by
  refine ⟨?_, ?_, ?_⟩
  · intro _
    rfl
  · intro r hr
    simp [applyOutcome, commonAuditLogicStart] at hr
  · intro _
    exact hsrc

theorem sysInvariant_rejected (s : Sys) (ts : List Toast) (h : SysInvariant s) :
    SysInvariant (applyOutcome s { state := s.page, toasts := ts, started := none }) := by
  obtain ⟨h1, h2, h3⟩ := h
  refine ⟨h1, h2, ?_⟩
  intro h
  apply h3
  simpa [applyOutcome] using h

theorem sysInvariant_step (s : Sys) (e : Event) (h : SysInvariant s) :
    SysInvariant (step s e) := by
  cases e with
  | setActiveTab tab => exact h
  | setContractCode code => exact h
  | setContractAddress addr => exact h
  | setFileName name => exact h
  | auditCode =>
    show SysInvariant (applyOutcome s (handleAuditCode s.page))
    by_cases hc : s.page.contractCode = ""
    · rw [handleAuditCode_empty _ hc]
      exact sysInvariant_rejected s _ h
    · rw [handleAuditCode_ok _ hc]
      exact sysInvariant_start s _ _ _ (Or.inl rfl)
  | auditAddress =>
    show SysInvariant (applyOutcome s (handleAuditAddress s.page))
    by_cases hc : s.page.contractAddress = ""
    · rw [handleAuditAddress_empty _ hc]
      exact sysInvariant_rejected s _ h
    · cases hr : addressRegexTest s.page.contractAddress with
      | false =>
        rw [handleAuditAddress_malformed _ hc hr]
        exact sysInvariant_rejected s _ h
      | true =>
        rw [handleAuditAddress_ok _ hr]
        exact sysInvariant_start s _ _ _ (Or.inr rfl)
  | timerFires i now =>
    cases hp : s.pending.get? i with
    | none =>
      simp only [step, hp]
      exact h
    | some p =>
      simp only [step, hp]
      obtain ⟨_, _, h3⟩ := h
      have hne : s.pending ≠ [] := by
        intro he
        rw [he] at hp
        simp at hp
      refine ⟨?_, ?_, ?_⟩
      · intro hl
        simp [commonAuditLogicFinish] at hl
      · intro r hr
        simp only [commonAuditLogicFinish, Option.some.injEq] at hr
        rw [← hr]
        exact mockVulnerabilities_length _
      · intro _
        exact h3 (Or.inr hne)

theorem sysInvariant_run (es : List Event) (s : Sys) (h : SysInvariant s) :
    SysInvariant (run s es) := by
  induction es generalizing s with
  | nil => exact h
  | cons e es ih => exact ih (step s e) (sysInvariant_step s e h)

/-- C10: in every state reached from the freshly mounted page by any sequence of tab
selections, input edits, submit-handler calls and timer firings (in any order, audits
overlapping or not), `isLoading` true implies `auditResults` null, and a non-null
`auditResults` has exactly 3 findings while `auditSource` is 'code' or 'address'. -/
theorem reachable_invariant (es : List Event) :
    ((run initialSys es).page.isLoading = true →
      (run initialSys es).page.auditResults = none) ∧
    (∀ r, (run initialSys es).page.auditResults = some r →
      r.vulnerabilities.length = 3 ∧
      ((run initialSys es).page.auditSource = "code" ∨
        (run initialSys es).page.auditSource = "address")) := by
  obtain ⟨h1, h2, h3⟩ := sysInvariant_run es initialSys sysInvariant_initial
  refine ⟨h1, fun r hr => ⟨h2 r hr, h3 (Or.inl ?_)⟩⟩
  rw [hr]
  exact Option.some_ne_none r

theorem reachable_invariant_witness :
    ((run initialSys inFlightRun).page.isLoading = true ∧
      (run initialSys inFlightRun).page.auditResults = none) ∧
    ((run initialSys overlappingRun).pending ≠ [] ∧
      (run initialSys overlappingRun).page.auditResults
        = some (mkAuditResults (Submission.code "pragma solidity ^0.8.0;" "").toPending
            "10:00") ∧
      (mkAuditResults (Submission.code "pragma solidity ^0.8.0;" "").toPending
            "10:00").vulnerabilities.length = 3 ∧
      ((run initialSys overlappingRun).page.auditSource = "code" ∨
        (run initialSys overlappingRun).page.auditSource = "address")) :=
  ⟨⟨rfl, (reachable_invariant inFlightRun).1 rfl⟩,
   ⟨by decide, rfl, (reachable_invariant overlappingRun).2 _ rfl⟩⟩

end AuditorPage
